import Mathlib

/-!
Shallow embedding of the sly slideshow creator (src/sly) and proofs about
its sequencing, geometry and file-discovery logic.

Conventions of the embedding:
* moviepy clips are modelled by `Sly.Clip`: a fixed pixel size, a duration in
  seconds (exact rationals stand in for Python floats), the list of effects
  that have been applied to the clip (in application order), and the absolute
  start offset assigned by `set_start`.  All moviepy effect calls
  (`fadein`, `fadeout`, `crossfadein`) copy the clip and leave its duration
  unchanged, which is exactly what the real library does.
* `concatenate_videoclips` and `CompositeVideoClip` are modelled by the
  `Sly.Comp` constructors; the duration of a concatenation is the sum of the
  durations, the duration of a composite is the maximal clip end time.
* `console.print` diagnostics are collected in `List String` components of
  return values; rich markup and float formatting are elided from the texts.
-/

namespace Sly

/-- Effect applied to a moviepy clip; the payload is the effect duration. -/
inductive Effect where
  | fadein (d : ℚ)
  | fadeout (d : ℚ)
  | crossfadein (d : ℚ)
deriving DecidableEq, Repr

/-- Model of a moviepy clip: pixel size, duration in seconds, the effects
applied so far (in order), the `set_start` offset, and the source file name
(empty for generated clips). -/
structure Clip where
  width : Nat
  height : Nat
  duration : ℚ
  effects : List Effect
  start : ℚ
  source : String
deriving DecidableEq, Repr

/-- Model of moviepy `clip.fadein(d)`: records the effect, keeps the duration. -/
def Clip.fadein (c : Clip) (d : ℚ) : Clip :=
  { c with effects := c.effects ++ [Effect.fadein d] }

/-- Model of moviepy `clip.fadeout(d)`. -/
def Clip.fadeout (c : Clip) (d : ℚ) : Clip :=
  { c with effects := c.effects ++ [Effect.fadeout d] }

/-- Model of moviepy `clip.crossfadein(d)`. -/
def Clip.crossfadein (c : Clip) (d : ℚ) : Clip :=
  { c with effects := c.effects ++ [Effect.crossfadein d] }

/-- Model of moviepy `clip.set_start(s)`. -/
def Clip.set_start (c : Clip) (s : ℚ) : Clip :=
  { c with start := s }

/-- Model of moviepy `clip.set_duration(d)`. -/
def Clip.set_duration (c : Clip) (d : ℚ) : Clip :=
  { c with duration := d }

/-- Model of moviepy `clip.subclip(a, b)`: the result lasts `b - a` seconds. -/
def Clip.subclip (c : Clip) (a b : ℚ) : Clip :=
  { c with duration := b - a }

/-- Placeholder clip used to model Python indexing `clips[0]` (which is only
ever evaluated on non-empty lists in the source). -/
def defaultClip : Clip := ⟨0, 0, 0, [], 0, ""⟩

/-- Result of assembling clips: either a single clip, the result of
`concatenate_videoclips`, or the result of `CompositeVideoClip`. -/
inductive Comp where
  | single (c : Clip)
  | concatClips (cs : List Clip)
  | compositeClips (cs : List Clip)
deriving DecidableEq, Repr

/-- Duration of an assembled composition: concatenation sums the clip
durations; a composite ends at the latest clip end time. -/
def Comp.duration : Comp → ℚ
  | Comp.single c => c.duration
  | Comp.concatClips cs => (cs.map Clip.duration).sum
  | Comp.compositeClips cs => (cs.map (fun c => c.start + c.duration)).foldr max 0

/-- The list of clips layered or chained inside a composition. -/
def Comp.layers : Comp → List Clip
  | Comp.single c => [c]
  | Comp.concatClips cs => cs
  | Comp.compositeClips cs => cs

/-- Loop body of `create_fade_sequence` (src/sly/slideshow.py lines 56-65):
first clip fades in, last clip fades out, middle clips fade in and out with
half the transition duration; `i` is the loop index, `n` the list length. -/
def fadeLoop (t : ℚ) (n : Nat) : Nat → List Clip → List Clip
  | _, [] => []
  | i, c :: rest =>
    (if i = 0 then c.fadein t
     else if i = n - 1 then c.fadeout t
     else (c.fadein (t / 2)).fadeout (t / 2)) :: fadeLoop t n (i + 1) rest

/-- Model of `create_fade_sequence` (src/sly/slideshow.py lines 50-71): apply
the per-position fades and concatenate; `concatenate_videoclips` cannot fail
in the model, so the `except` fallback path is not reachable. -/
def create_fade_sequence (clips : List Clip) (t : ℚ) : Comp :=
  Comp.concatClips (fadeLoop t clips.length 0 clips)

/-- First loop of `create_crossfade_sequence` (src/sly/slideshow.py lines
84-93): fade in the first clip, fade out the last, leave middle clips alone. -/
def crossfadeFadeLoop (t : ℚ) (n : Nat) : Nat → List Clip → List Clip
  | _, [] => []
  | i, c :: rest =>
    (if i = 0 then c.fadein t
     else if i = n - 1 then c.fadeout t
     else c) :: crossfadeFadeLoop t n (i + 1) rest

/-- Second loop of `create_crossfade_sequence` (src/sly/slideshow.py lines
99-112): place each clip at the running `current_time`, adding a
`crossfadein` to every clip except the first; `current_time` advances by
`clip.duration - t` after every clip except the last. -/
def placeLoop (n : Nat) (t : ℚ) : Nat → ℚ → List Clip → List Clip
  | _, _, [] => []
  | i, current_time, c :: rest =>
    if i = 0 then
      c.set_start current_time :: placeLoop n t (i + 1) (current_time + c.duration - t) rest
    else if i = n - 1 then
      (c.crossfadein t).set_start current_time :: placeLoop n t (i + 1) current_time rest
    else
      (c.crossfadein t).set_start current_time ::
        placeLoop n t (i + 1) (current_time + c.duration - t) rest

/-- Model of `create_crossfade_sequence` (src/sly/slideshow.py lines 74-123).
The `try` block cannot fail in the model, so the concatenation fallback of the
`except` branch is not reachable. -/
def create_crossfade_sequence (clips : List Clip) (t : ℚ) : Comp :=
  if clips.length = 1 then
    Comp.single (((clips.getD 0 defaultClip).fadein t).fadeout t)
  else
    let result_clips := crossfadeFadeLoop t clips.length 0 clips
    let composite_clips := placeLoop result_clips.length t 0 0 result_clips
    if composite_clips.length > 1 then
      Comp.compositeClips composite_clips
    else
      Comp.single (composite_clips.getD 0 defaultClip)

/-- Model of `create_transition_sequence` (src/sly/slideshow.py lines 23-47).
The second component collects the console diagnostics emitted by the call. -/
def create_transition_sequence (clips : List Clip) (t : ℚ) (transition_type : String) :
    Option Comp × List String :=
  if clips.length = 0 then (none, [])
  else if clips.length = 1 then
    (some (Comp.single (((clips.getD 0 defaultClip).fadein t).fadeout t)), [])
  else if transition_type = "fade" then
    (some (create_fade_sequence clips t), [])
  else if transition_type = "crossfade" then
    (some (create_crossfade_sequence clips t), [])
  else
    (some (create_crossfade_sequence clips t),
      ["Unknown transition type " ++ transition_type ++ ", using crossfade"])

/-- Model of moviepy `ColorClip(size=(w, h), color=(0, 0, 0)).set_duration(d)`. -/
def ColorClip (w h : Nat) (d : ℚ) : Clip := ⟨w, h, d, [], 0, "ColorClip"⟩

/-- Clips emitted ahead of the main sequence when a title is given, from
`SlideshowCreator.create_slideshow` (src/sly/slideshow.py lines 236-244):
a half-second black clip, the faded title, and a half-second black pause. -/
def slideshow_title_clips (title_slide : Option Clip) (transition_duration : ℚ) : List Clip :=
  match title_slide with
  | none => []
  | some ts =>
    [ColorClip ts.width ts.height (1 / 2),
      (ts.fadein transition_duration).fadeout transition_duration,
      ColorClip ts.width ts.height (1 / 2)]

/-- Clip with the default 1920x1080 canvas, no effects and a given duration,
as produced for an image by the materialization step. -/
def testClip (d : ℚ) : Clip := ⟨1920, 1080, d, [], 0, ""⟩

@[simp] lemma fadein_duration (c : Clip) (d : ℚ) : (c.fadein d).duration = c.duration := rfl

@[simp] lemma fadeout_duration (c : Clip) (d : ℚ) : (c.fadeout d).duration = c.duration := rfl

@[simp] lemma crossfadein_duration (c : Clip) (d : ℚ) :
    (c.crossfadein d).duration = c.duration := rfl

@[simp] lemma set_start_duration (c : Clip) (s : ℚ) : (c.set_start s).duration = c.duration := rfl

lemma fadeLoop_map_duration (t : ℚ) (n : Nat) :
    ∀ (cs : List Clip) (i : Nat), (fadeLoop t n i cs).map Clip.duration = cs.map Clip.duration := by
  intro cs
  induction cs with
  | nil => intro i; simp [fadeLoop]
  | cons c rest ih =>
    intro i
    simp only [fadeLoop, List.map_cons, ih]
    split
    · simp
    · split <;> simp

/-- The claim C1 states that the fade-to-black sequence over `n` clips of
duration `d` with transition `t < d` lasts `n * d - (n - 1) * t` seconds, and
in particular `7` seconds for three 3-second clips with `t = 1`.  The code
(src/sly/slideshow.py lines 50-71) only applies fades, which keep each
duration unchanged, and concatenates without overlap, so three 3-second clips
yield `9` seconds, not `7`. -/
theorem C1_counterexample :
    (create_fade_sequence [testClip 3, testClip 3, testClip 3] 1).duration = 9 ∧
      (9 : ℚ) ≠ 3 * 3 - (3 - 1) * 1 := by
  constructor
  · simp only [create_fade_sequence, Comp.duration, fadeLoop_map_duration]
    norm_num [testClip]
  · norm_num

/-- Amended claim C1: the fade-to-black style of `create_transition_sequence`
concatenates the faded clips without any overlap, so for `n` clips of
duration `d` each the composed duration is `n * d`, regardless of the
transition duration; Scenario A yields `9` seconds, not `7`. -/
theorem C1_fade_duration (n : Nat) (d t : ℚ) :
    (create_fade_sequence (List.replicate n (testClip d)) t).duration = n * d := by
  simp only [create_fade_sequence, Comp.duration, fadeLoop_map_duration]
  simp [List.map_replicate, List.sum_replicate, testClip, nsmul_eq_mul]

/-- Spec-side description of the crossfade layout, transcribed from the
spec (section 4.4, crossfade style) and amended for the last clip: clip `i`
is placed at the absolute offset `offset[i-1] + clip[i-1].duration - t`
(with `offset[0] = 0`); the first clip carries a fade-in, the last clip a
fade-out followed by a crossfade-in, interior clips a crossfade-in; no clip
is trimmed. -/
def layoutAux (t : ℚ) (n : Nat) : Nat → ℚ → List Clip → List Clip
  | _, _, [] => []
  | i, off, c :: rest =>
    (if i = 0 then (c.fadein t).set_start off
     else if i = n - 1 then ((c.fadeout t).crossfadein t).set_start off
     else (c.crossfadein t).set_start off) ::
      layoutAux t n (i + 1) (off + c.duration - t) rest

/-- The crossfade layout of a clip list: absolute offsets from the spec
recurrence, fade-in on the first clip, fade-out plus crossfade-in on the
last, crossfade-in on interior clips. -/
def crossfadeLayout (clips : List Clip) (t : ℚ) : List Clip :=
  layoutAux t clips.length 0 0 clips

lemma crossfadeFadeLoop_length (t : ℚ) (n : Nat) :
    ∀ (cs : List Clip) (i : Nat), (crossfadeFadeLoop t n i cs).length = cs.length := by
  intro cs
  induction cs with
  | nil => intro i; rfl
  | cons c rest ih => intro i; simp [crossfadeFadeLoop, ih]

lemma layoutAux_length (t : ℚ) (n : Nat) :
    ∀ (cs : List Clip) (i : Nat) (off : ℚ), (layoutAux t n i off cs).length = cs.length := by
  intro cs
  induction cs with
  | nil => intro i off; rfl
  | cons c rest ih => intro i off; simp [layoutAux, ih]

lemma layoutAux_map_duration (t : ℚ) (n : Nat) :
    ∀ (cs : List Clip) (i : Nat) (off : ℚ),
      (layoutAux t n i off cs).map Clip.duration = cs.map Clip.duration := by
  intro cs
  induction cs with
  | nil => intro i off; rfl
  | cons c rest ih =>
    intro i off
    simp only [layoutAux, List.map_cons, ih]
    split
    · simp
    · split <;> simp

/-- Fusing the two loops of `create_crossfade_sequence`: when the index is
aligned with the remaining clips, applying the placement loop to the output
of the fade loop yields exactly the crossfade layout. -/
lemma placeLoop_crossfadeFadeLoop (t : ℚ) (n : Nat) :
    ∀ (cs : List Clip) (i : Nat) (off : ℚ), i + cs.length = n →
      placeLoop n t i off (crossfadeFadeLoop t n i cs) = layoutAux t n i off cs := by
  intro cs
  induction cs with
  | nil => intro i off _; rfl
  | cons c rest ih =>
    intro i off h
    by_cases hi : i = 0
    · subst hi
      have ht := ih 1 (off + c.duration - t) (by simp at h; omega)
      simp [crossfadeFadeLoop, placeLoop, layoutAux, ht]
    · by_cases hl : i = n - 1
      · have hrest : rest = [] := by
          have hlen : rest.length = 0 := by simp at h; omega
          exact List.eq_nil_of_length_eq_zero hlen
        subst hrest
        have hne : ¬n - 1 = 0 := hl ▸ hi
        simp [crossfadeFadeLoop, placeLoop, layoutAux, hi, hl, hne]
      · have ht := ih (i + 1) (off + c.duration - t) (by simp at h; omega)
        simp [crossfadeFadeLoop, placeLoop, layoutAux, hi, hl, ht]

/-- The claim C2 states that in the crossfade style the last clip receives
only a fade-out.  In the code (src/sly/slideshow.py lines 88-90 and 106-108)
the last clip receives a fade-out in the first loop and additionally a
crossfade-in in the placement loop: for two 3-second clips with `t = 1` the
second layered clip carries both effects, not just the fade-out. -/
theorem C2_counterexample :
    ((create_crossfade_sequence [testClip 3, testClip 3] 1).layers.getD 1 defaultClip).effects =
        [Effect.fadeout 1, Effect.crossfadein 1] ∧
      [Effect.fadeout 1, Effect.crossfadein 1] ≠ [Effect.fadeout 1] := by
  constructor
  · rfl
  · simp

/-- Amended claim C2: for at least two clips, `create_crossfade_sequence`
layers the full, untrimmed clips into a single composite where clip 0 starts
at offset 0 with only a fade-in, interior clips start at
`offset[i-1] + clip[i-1].duration - t` with only a crossfade-in, and the
last clip starts at its recurrence offset with a fade-out AND a crossfade-in
(not only a fade-out as claimed); all durations are preserved. -/
theorem C2_crossfade_layout (clips : List Clip) (t : ℚ) (h : 2 ≤ clips.length) :
    create_crossfade_sequence clips t = Comp.compositeClips (crossfadeLayout clips t) ∧
      (crossfadeLayout clips t).map Clip.duration = clips.map Clip.duration := by
  have h1 : ¬clips.length = 1 := by omega
  have h2 : 1 < clips.length := by omega
  constructor
  · have hkey := placeLoop_crossfadeFadeLoop t clips.length clips 0 0 (by omega)
    simp [create_crossfade_sequence, h1, crossfadeFadeLoop_length, hkey,
      layoutAux_length, crossfadeLayout, h2]
  · exact layoutAux_map_duration t clips.length clips 0 0

/-- Witness for C2 at a concrete input: two 3-second clips with transition 1. -/
theorem C2_crossfade_layout_witness :
    create_crossfade_sequence [testClip 3, testClip 3] 1 =
        Comp.compositeClips (crossfadeLayout [testClip 3, testClip 3] 1) ∧
      (crossfadeLayout [testClip 3, testClip 3] 1).map Clip.duration =
        [testClip 3, testClip 3].map Clip.duration :=
  C2_crossfade_layout [testClip 3, testClip 3] 1 (by decide)

/-- The claim C4 states that an unrecognized transition type makes
`create_transition_sequence` emit a warning for every non-empty clip list.
For a singleton list the code (src/sly/slideshow.py line 38) returns before
the transition type is examined, so no warning is emitted even though the
returned composition agrees with the crossfade one. -/
theorem C4_counterexample :
    (create_transition_sequence [testClip 3] 1 "wipe").2 = [] ∧
      (create_transition_sequence [testClip 3] 1 "wipe").1 =
        (create_transition_sequence [testClip 3] 1 "crossfade").1 := by
  constructor <;> rfl

/-- Amended claim C4: for any clip list, an unrecognized transition type
produces exactly the composition of the crossfade type and never fails; the
diagnostic warning is emitted precisely when the list has at least two
clips, because a singleton list returns before the type is inspected. -/
theorem C4_unknown_type_fallback (clips : List Clip) (t : ℚ) (ty : String)
    (h1 : ty ≠ "fade") (h2 : ty ≠ "crossfade") :
    (create_transition_sequence clips t ty).1 =
        (create_transition_sequence clips t "crossfade").1 ∧
      ((create_transition_sequence clips t ty).2 ≠ [] ↔ 2 ≤ clips.length) := by
  by_cases h0 : clips.length = 0
  · constructor
    · simp [create_transition_sequence, h0]
    · simp [create_transition_sequence, h0]
  · by_cases hone : clips.length = 1
    · constructor
      · simp [create_transition_sequence, hone]
      · simp [create_transition_sequence, h0, hone]
    · constructor
      · simp [create_transition_sequence, h0, hone, h1, h2]
      · simp [create_transition_sequence, h0, hone, h1, h2]
        omega

/-- Witness for C4 at a concrete input: two clips and the type wipe. -/
theorem C4_unknown_type_fallback_witness :
    (create_transition_sequence [testClip 3, testClip 4] 1 "wipe").1 =
        (create_transition_sequence [testClip 3, testClip 4] 1 "crossfade").1 ∧
      ((create_transition_sequence [testClip 3, testClip 4] 1 "wipe").2 ≠ [] ↔
        2 ≤ [testClip 3, testClip 4].length) :=
  C4_unknown_type_fallback [testClip 3, testClip 4] 1 "wipe" (by decide) (by decide)

/-- The claim C8 states that a title contributes four clips, namely a black
clip of one second, the faded title, a black clip of one second and a pause
of one second.  The code (src/sly/slideshow.py lines 236-244) emits only
three clips and both black clips last half a second. -/
theorem C8_counterexample :
    (slideshow_title_clips (some (testClip 3)) 1).length = 3 ∧ (3 : Nat) ≠ 4 ∧
      ((slideshow_title_clips (some (testClip 3)) 1).getD 0 defaultClip).duration = 1 / 2 ∧
      (1 / 2 : ℚ) ≠ 1 := by
  refine ⟨rfl, by decide, rfl, by norm_num⟩

/-- Amended claim C8: when a title is provided the clips emitted ahead of
the main sequence are exactly three: a black clip of half a second, the
title clip with a fade-in and a fade-out equal to the transition duration,
and a black half-second pause clip. -/
theorem C8_title_intro (ts : Clip) (t : ℚ) :
    (slideshow_title_clips (some ts) t).map Clip.duration = [1 / 2, ts.duration, 1 / 2] ∧
      (slideshow_title_clips (some ts) t).map Clip.effects =
        [[], ts.effects ++ [Effect.fadein t, Effect.fadeout t], []] ∧
      (slideshow_title_clips (some ts) t).length = 3 := by
  refine ⟨rfl, ?_, rfl⟩
  simp [slideshow_title_clips, ColorClip, Clip.fadein, Clip.fadeout]

/-- Model of a PIL image: only the pixel dimensions matter for the claims;
pixel contents are handled by the external library. -/
structure PILImage where
  width : Nat
  height : Nat
deriving DecidableEq, Repr

/-- A PIL crop box `(left, upper, right, lower)`. -/
structure Box where
  left : Int
  top : Int
  right : Int
  bottom : Int
deriving DecidableEq, Repr

/-- Model of the Python `int()` conversion, which truncates toward zero;
Python float arithmetic is modelled by exact rationals. -/
def pyInt (q : ℚ) : Int := if 0 ≤ q then ⌊q⌋ else ⌈q⌉

/-- Crop box computed by `resize_and_crop` (src/sly/image_utils.py lines
205-217); `//` is Python floor division, modelled by `Int.fdiv`. -/
def cropBox (sw sh tw th : Nat) : Box :=
  let img_aspect : ℚ := (sw : ℚ) / (sh : ℚ)
  let target_aspect : ℚ := (tw : ℚ) / (th : ℚ)
  if target_aspect > img_aspect then
    let new_height : Int := pyInt ((sw : ℚ) / target_aspect)
    let top : Int := Int.fdiv ((sh : Int) - new_height) 2
    ⟨0, top, (sw : Int), top + new_height⟩
  else
    let new_width : Int := pyInt ((sh : ℚ) * target_aspect)
    let left : Int := Int.fdiv ((sw : Int) - new_width) 2
    ⟨left, 0, left + new_width, (sh : Int)⟩

/-- Model of PIL `Image.crop`: the result has the size of the requested box. -/
def PILImage.crop (_ : PILImage) (b : Box) : PILImage :=
  ⟨(b.right - b.left).toNat, (b.bottom - b.top).toNat⟩

/-- Model of PIL `Image.resize`: the result has exactly the requested size. -/
def PILImage.resizeTo (_ : PILImage) (w h : Nat) : PILImage := ⟨w, h⟩

/-- Model of `resize_and_crop` (src/sly/image_utils.py lines 191-219):
crop to the aspect-matching centered box, then resize to the target size. -/
def resize_and_crop (image : PILImage) (target_width target_height : Nat) : PILImage :=
  (image.crop (cropBox image.width image.height target_width target_height)).resizeTo
    target_width target_height

/-- Claim C3: for positive source and target dimensions, `resize_and_crop`
returns an image of exactly the target size; the final resize call fixes the
output size whatever the crop produced, covering the equal-ratio no-op crop
and the degenerate 1x1 source. -/
theorem C3_resize_and_crop_dims (sw sh tw th : Nat)
    (h1 : 0 < sw) (h2 : 0 < sh) (h3 : 0 < tw) (h4 : 0 < th) :
    resize_and_crop ⟨sw, sh⟩ tw th = ⟨tw, th⟩ := rfl

/-- Witness for C3 at the degenerate 1x1 source. -/
theorem C3_resize_and_crop_dims_witness :
    resize_and_crop ⟨1, 1⟩ 1920 1080 = ⟨1920, 1080⟩ :=
  C3_resize_and_crop_dims 1 1 1920 1080 (by decide) (by decide) (by decide) (by decide)

/-- Claim C10: for positive source and target dimensions the crop rectangle
lies inside the source image: nonnegative left and top, right edge at most
the source width, bottom edge at most the source height, and nonnegative
width and height. -/
theorem C10_crop_box_within_source (sw sh tw th : Nat)
    (h1 : 0 < sw) (h2 : 0 < sh) (h3 : 0 < tw) (h4 : 0 < th) :
    0 ≤ (cropBox sw sh tw th).left ∧ 0 ≤ (cropBox sw sh tw th).top ∧
      (cropBox sw sh tw th).left ≤ (cropBox sw sh tw th).right ∧
      (cropBox sw sh tw th).top ≤ (cropBox sw sh tw th).bottom ∧
      (cropBox sw sh tw th).right ≤ (sw : Int) ∧
      (cropBox sw sh tw th).bottom ≤ (sh : Int) := by
  have hswq : (0 : ℚ) < (sw : ℚ) := by exact_mod_cast h1
  have hshq : (0 : ℚ) < (sh : ℚ) := by exact_mod_cast h2
  have htwq : (0 : ℚ) < (tw : ℚ) := by exact_mod_cast h3
  have hthq : (0 : ℚ) < (th : ℚ) := by exact_mod_cast h4
  simp only [cropBox]
  split
  · rename_i hgt
    dsimp only
    rw [gt_iff_lt, div_lt_div_iff hshq hthq] at hgt
    have hq0 : (0 : ℚ) ≤ (sw : ℚ) / ((tw : ℚ) / (th : ℚ)) := by positivity
    have hpy : pyInt ((sw : ℚ) / ((tw : ℚ) / (th : ℚ))) = ⌊(sw : ℚ) / ((tw : ℚ) / (th : ℚ))⌋ :=
      if_pos hq0
    set nh : Int := pyInt ((sw : ℚ) / ((tw : ℚ) / (th : ℚ))) with hnh
    have hnh0 : 0 ≤ nh := by
      rw [hpy]
      exact Int.floor_nonneg.mpr hq0
    have hnhsh : nh ≤ (sh : Int) := by
      rw [hpy]
      have hlt : (sw : ℚ) / ((tw : ℚ) / (th : ℚ)) < ((sh : Int) : ℚ) := by
        rw [div_div_eq_mul_div, div_lt_iff htwq]
        push_cast
        calc (sw : ℚ) * (th : ℚ) < (tw : ℚ) * (sh : ℚ) := by linarith
          _ = (sh : ℚ) * (tw : ℚ) := by ring
      exact le_of_lt (Int.floor_lt.mpr hlt)
    have htop0 : 0 ≤ Int.fdiv ((sh : Int) - nh) 2 :=
      Int.fdiv_nonneg (by omega) (by norm_num)
    have htop2 : Int.fdiv ((sh : Int) - nh) 2 * 2 ≤ (sh : Int) - nh := by
      rw [Int.fdiv_eq_ediv _ (by norm_num)]
      exact Int.ediv_mul_le _ (by norm_num)
    refine ⟨le_refl 0, htop0, ?_, ?_, le_refl _, ?_⟩
    · exact_mod_cast Int.ofNat_nonneg sw
    · omega
    · omega
  · rename_i hle
    dsimp only
    rw [gt_iff_lt, not_lt] at hle
    have hq0 : (0 : ℚ) ≤ (sh : ℚ) * ((tw : ℚ) / (th : ℚ)) := by positivity
    have hpy : pyInt ((sh : ℚ) * ((tw : ℚ) / (th : ℚ))) = ⌊(sh : ℚ) * ((tw : ℚ) / (th : ℚ))⌋ :=
      if_pos hq0
    set nw : Int := pyInt ((sh : ℚ) * ((tw : ℚ) / (th : ℚ))) with hnw
    have hnw0 : 0 ≤ nw := by
      rw [hpy]
      exact Int.floor_nonneg.mpr hq0
    have hnwsw : nw ≤ (sw : Int) := by
      rw [hpy]
      have hle2 : (sh : ℚ) * ((tw : ℚ) / (th : ℚ)) ≤ ((sw : Int) : ℚ) := by
        rw [div_le_div_iff hthq hshq] at hle
        rw [← mul_div_assoc, div_le_iff hthq]
        push_cast
        calc (sh : ℚ) * (tw : ℚ) = (tw : ℚ) * (sh : ℚ) := by ring
          _ ≤ (sw : ℚ) * (th : ℚ) := hle
      calc ⌊(sh : ℚ) * ((tw : ℚ) / (th : ℚ))⌋ ≤ ⌊((sw : Int) : ℚ)⌋ := Int.floor_le_floor hle2
        _ = (sw : Int) := Int.floor_intCast _
    have hleft0 : 0 ≤ Int.fdiv ((sw : Int) - nw) 2 :=
      Int.fdiv_nonneg (by omega) (by norm_num)
    have hleft2 : Int.fdiv ((sw : Int) - nw) 2 * 2 ≤ (sw : Int) - nw := by
      rw [Int.fdiv_eq_ediv _ (by norm_num)]
      exact Int.ediv_mul_le _ (by norm_num)
    refine ⟨hleft0, le_refl 0, ?_, ?_, ?_, le_refl _⟩
    · omega
    · exact_mod_cast Int.ofNat_nonneg sh
    · omega

/-- Witness for C10 at a concrete input: a 4000x100 source cropped for a
200x200 target. -/
theorem C10_crop_box_within_source_witness :
    0 ≤ (cropBox 4000 100 200 200).left ∧ 0 ≤ (cropBox 4000 100 200 200).top ∧
      (cropBox 4000 100 200 200).left ≤ (cropBox 4000 100 200 200).right ∧
      (cropBox 4000 100 200 200).top ≤ (cropBox 4000 100 200 200).bottom ∧
      (cropBox 4000 100 200 200).right ≤ ((4000 : Nat) : Int) ∧
      (cropBox 4000 100 200 200).bottom ≤ ((100 : Nat) : Int) :=
  C10_crop_box_within_source 4000 100 200 200 (by decide) (by decide) (by decide) (by decide)

/-- A directory entry: file name and filesystem modification time, the two
attributes `get_media_files` inspects. -/
structure FileEntry where
  name : String
  mtime : ℚ
deriving DecidableEq, Repr

/-- Index of the last dot in a character list, if any. -/
def lastDotIdx (cs : List Char) : Option Nat :=
  ((List.range cs.length).filter (fun i => cs.getD i ' ' = '.')).getLast?

/-- Model of `pathlib.Path.suffix`: the final extension including its dot,
or the empty string when the name has no dot, ends with its only dot, or
starts with its only dot. -/
def pathSuffix (name : String) : String :=
  let cs := name.toList
  match lastDotIdx cs with
  | none => ""
  | some i => if 0 < i ∧ i + 1 < cs.length then String.mk (cs.drop i) else ""

/-- Image extensions recognized by src/sly/image_utils.py; the Python set is
modelled as a duplicate-free list. -/
def image_extensions : List String :=
  [".jpg", ".jpeg", ".png", ".gif", ".bmp", ".jpg_", ".tiff", ".tif", ".webp"]

/-- Video extensions recognized by src/sly/image_utils.py. -/
def video_extensions : List String :=
  [".mp4", ".avi", ".mov", ".mkv", ".wmv", ".flv", ".webm", ".m4v", ".3gp", ".mpg", ".mpeg"]

/-- Union of the image and video extension sets. -/
def all_extensions : List String := image_extensions ++ video_extensions

/-- Model of Python `str.lower` on extension strings: lower each character,
as `String.toLower` does. -/
def strToLower (s : String) : String := String.mk (s.toList.map Char.toLower)

/-- Model of `is_video_file` (src/sly/image_utils.py lines 115-138). -/
def is_video_file (name : String) : Bool :=
  video_extensions.contains (strToLower (pathSuffix name))

/-- Model of `is_image_file` (src/sly/image_utils.py lines 141-162). -/
def is_image_file (name : String) : Bool :=
  image_extensions.contains (strToLower (pathSuffix name))

/-- Whether a directory entry matches the recognized media extensions,
case-insensitively; the filter predicate of `get_media_files`. -/
def isMediaEntry (f : FileEntry) : Bool :=
  all_extensions.contains (strToLower (pathSuffix f.name))

/-- Model of `get_media_files` (src/sly/image_utils.py lines 9-67).  The
directory listing is the iteration order of `Path.iterdir`; Python `sort` is
stable, modelled by `mergeSort`; `random.shuffle` is nondeterministic and is
modelled by an oracle permutation parameter; `FileNotFoundError` becomes
`Except.error` carrying the message. -/
def get_media_files (dir : List FileEntry) (path : String) (order : String)
    (shuffle : List FileEntry → List FileEntry) : Except String (List FileEntry) :=
  let media_files := dir.filter isMediaEntry
  if media_files.isEmpty then
    Except.error ("No image or video files found in the specified directory: " ++ path)
  else if order = "name" then
    Except.ok (media_files.mergeSort (fun a b => decide (a.name ≤ b.name)))
  else if order = "date" then
    Except.ok (media_files.mergeSort (fun a b => decide (a.mtime ≤ b.mtime)))
  else if order = "random" then
    Except.ok (shuffle media_files)
  else
    Except.ok media_files

/-- Claim C7: `get_media_files` fails exactly on directories with no
recognized media file, and the error message names the directory; whenever a
matching file exists, no error is raised for any order argument. -/
theorem C7_get_media_files_not_found (dir : List FileEntry) (path order : String)
    (shuffle : List FileEntry → List FileEntry) :
    ((dir.filter isMediaEntry).isEmpty = true →
        get_media_files dir path order shuffle =
          Except.error ("No image or video files found in the specified directory: " ++ path)) ∧
      ((dir.filter isMediaEntry).isEmpty = false →
        ∃ fs, get_media_files dir path order shuffle = Except.ok fs) := by
  constructor
  · intro hempty
    simp [get_media_files, hempty]
  · intro hne
    rw [get_media_files]
    simp only [hne, Bool.false_eq_true, if_false]
    by_cases hn : order = "name"
    · exact ⟨_, by rw [if_pos hn]⟩
    · rw [if_neg hn]
      by_cases hd : order = "date"
      · exact ⟨_, by rw [if_pos hd]⟩
      · rw [if_neg hd]
        by_cases hr : order = "random"
        · exact ⟨_, by rw [if_pos hr]⟩
        · exact ⟨_, by rw [if_neg hr]⟩

/-- Witness for C7: an empty directory raises the named error; a directory
with one jpg raises none. -/
theorem C7_get_media_files_not_found_witness :
    get_media_files [] "media" "name" id =
        Except.error ("No image or video files found in the specified directory: " ++ "media") ∧
      ∃ fs, get_media_files [⟨"a.jpg", 0⟩] "media" "name" id = Except.ok fs :=
  ⟨(C7_get_media_files_not_found [] "media" "name" id).1 rfl,
    (C7_get_media_files_not_found [⟨"a.jpg", 0⟩] "media" "name" id).2 (by decide)⟩

/-- Claim C9: an order argument other than name, date and random is accepted
silently and the matching files are returned in directory-iteration order,
unsorted, provided at least one file matches. -/
theorem C9_unknown_order (dir : List FileEntry) (path order : String)
    (shuffle : List FileEntry → List FileEntry)
    (h1 : order ≠ "name") (h2 : order ≠ "date") (h3 : order ≠ "random")
    (hne : (dir.filter isMediaEntry).isEmpty = false) :
    get_media_files dir path order shuffle = Except.ok (dir.filter isMediaEntry) := by
  rw [get_media_files]
  simp only [hne, Bool.false_eq_true, if_false]
  rw [if_neg h1, if_neg h2, if_neg h3]

/-- Witness for C9: order size on a directory with one jpg returns the
filtered listing unchanged. -/
theorem C9_unknown_order_witness :
    get_media_files [⟨"a.jpg", 0⟩] "media" "size" id =
        Except.ok (List.filter isMediaEntry [⟨"a.jpg", 0⟩]) :=
  C9_unknown_order [⟨"a.jpg", 0⟩] "media" "size" id (by decide) (by decide) (by decide) (by decide)

/-- A media file as seen by the processing loops: its name (classification
happens on the extension), the native duration reported by the video
decoder, and whether opening or decoding the file succeeds.  The external
decoders are the only failure source modelled. -/
structure MFile where
  name : String
  nativeDuration : ℚ
  decodeOk : Bool
deriving DecidableEq, Repr

@[simp] lemma set_duration_duration (c : Clip) (d : ℚ) : (c.set_duration d).duration = d := rfl

@[simp] lemma subclip_duration (c : Clip) (a b : ℚ) : (c.subclip a b).duration = b - a := rfl

/-- Loop body of `process_media_files` (src/sly/video_utils.py lines
110-144) for one file: videos are decoded and duration-adjusted by mode,
images are decoded, rotated, crop-resized and given `image_duration`;
unsupported files are skipped with a warning; any decode failure is caught,
reported and skipped.  Pixel geometry is delegated to the external library;
the clip records the requested target size. -/
def processMediaOne (f : MFile) (width height : Nat) (image_duration : ℚ)
    (video_duration_mode : String) : List Clip × List String :=
  if is_video_file f.name then
    if f.decodeOk then
      let video_clip : Clip := ⟨width, height, f.nativeDuration, [], 0, f.name⟩
      let video_clip :=
        if video_duration_mode = "fixed" then video_clip.set_duration image_duration
        else if video_duration_mode = "limit" then
          (if video_clip.duration > image_duration * 3 then
            video_clip.subclip 0 (image_duration * 3)
          else video_clip)
        else video_clip
      ([video_clip], ["Processed video: " ++ f.name])
    else ([], ["Error processing " ++ f.name])
  else if is_image_file f.name then
    if f.decodeOk then
      ([⟨width, height, image_duration, [], 0, f.name⟩], ["Processed image: " ++ f.name])
    else ([], ["Error processing " ++ f.name])
  else
    ([], ["Skipping unsupported file: " ++ f.name])

/-- Model of `process_media_files` (src/sly/video_utils.py lines 85-146):
process the files in order, collecting clips and console messages; the
per-file `try` block makes each file independent of the others. -/
def process_media_files (files : List MFile) (width height : Nat) (image_duration : ℚ)
    (video_duration_mode : String) : List Clip × List String :=
  match files with
  | [] => ([], [])
  | f :: rest =>
    let one := processMediaOne f width height image_duration video_duration_mode
    let rest_result := process_media_files rest width height image_duration video_duration_mode
    (one.1 ++ rest_result.1, one.2 ++ rest_result.2)

/-- Model of `process_images` (src/sly/video_utils.py lines 149-171): every
file is opened as an image with no exception handling, so the first decode
failure aborts the whole run. -/
def process_images (files : List MFile) (width height : Nat) (duration : ℚ) :
    Except String (List Clip) :=
  match files with
  | [] => Except.ok []
  | f :: rest =>
    if f.decodeOk then
      match process_images rest width height duration with
      | Except.ok cs => Except.ok (⟨width, height, duration, [], 0, f.name⟩ :: cs)
      | Except.error e => Except.error e
    else
      Except.error ("Error decoding " ++ f.name)

/-- A file that the mixed-media loop turns into a clip: a decodable image or
video. -/
def validMedia (f : MFile) : Bool :=
  (is_video_file f.name || is_image_file f.name) && f.decodeOk

lemma process_media_files_append (xs ys : List MFile) (w h : Nat) (d : ℚ) (mode : String) :
    process_media_files (xs ++ ys) w h d mode =
      ((process_media_files xs w h d mode).1 ++ (process_media_files ys w h d mode).1,
        (process_media_files xs w h d mode).2 ++ (process_media_files ys w h d mode).2) := by
  induction xs with
  | nil => simp [process_media_files]
  | cons f rest ih => simp [process_media_files, ih]

lemma processMediaOne_bad (f : MFile) (w h : Nat) (d : ℚ) (mode : String)
    (hbad : f.decodeOk = false)
    (hkind : is_image_file f.name = true ∨ is_video_file f.name = true) :
    processMediaOne f w h d mode = ([], ["Error processing " ++ f.name]) := by
  by_cases hv : is_video_file f.name = true
  · simp [processMediaOne, hv, hbad]
  · rcases hkind with hk | hk
    · simp [processMediaOne, hv, hk, hbad]
    · exact absurd hk hv

lemma processMediaOne_valid (f : MFile) (w h : Nat) (d : ℚ) (mode : String)
    (hval : validMedia f = true) : (processMediaOne f w h d mode).1 ≠ [] := by
  rw [validMedia, Bool.and_eq_true, Bool.or_eq_true] at hval
  have hok : f.decodeOk = true := hval.2
  by_cases hv : is_video_file f.name = true
  · simp [processMediaOne, hv, hok]
  · have hi : is_image_file f.name = true := by
      rcases hval.1 with hk | hk
      · exact absurd hk hv
      · exact hk
    simp [processMediaOne, hv, hi, hok]

lemma process_media_files_ne_nil (files : List MFile) (w h : Nat) (d : ℚ) (mode : String)
    (g : MFile) (hg : g ∈ files) (hval : validMedia g = true) :
    (process_media_files files w h d mode).1 ≠ [] := by
  induction files with
  | nil => cases hg
  | cons f rest ih =>
    intro habs
    have habs2 : (processMediaOne f w h d mode).1 = [] ∧
        (process_media_files rest w h d mode).1 = [] := by
      rw [← List.append_eq_nil]
      exact habs
    rcases List.mem_cons.mp hg with hgf | hgr
    · exact processMediaOne_valid f w h d mode (hgf ▸ hval) habs2.1
    · exact ih hgr habs2.2

lemma process_images_error (files : List MFile) (w h : Nat) (d : ℚ)
    (hbad : ∃ f ∈ files, f.decodeOk = false) :
    ∃ e, process_images files w h d = Except.error e := by
  induction files with
  | nil =>
    rcases hbad with ⟨f, hf, _⟩
    cases hf
  | cons f rest ih =>
    by_cases hok : f.decodeOk = true
    · rcases hbad with ⟨g, hg, hgbad⟩
      rcases List.mem_cons.mp hg with hgf | hgr
      · rw [hgf, hok] at hgbad
        cases hgbad
      · rcases ih ⟨g, hgr, hgbad⟩ with ⟨e, he⟩
        exact ⟨e, by simp [process_images, hok, he]⟩
    · have hf : f.decodeOk = false := by
        cases h : f.decodeOk
        · rfl
        · exact absurd h hok
      exact ⟨"Error decoding " ++ f.name, by simp [process_images, hf]⟩

/-- Claim C5: in `process_media_files` a decodable video clip keeps its
native duration under mode original, is forced to `image_duration` under
mode fixed, and is capped at `image_duration * 3` under mode limit, which
equals the minimum of the native duration and the cap. -/
theorem C5_video_duration_modes (f : MFile) (w h : Nat) (d : ℚ)
    (hv : is_video_file f.name = true) (hok : f.decodeOk = true) :
    (process_media_files [f] w h d "original").1.map Clip.duration = [f.nativeDuration] ∧
      (process_media_files [f] w h d "fixed").1.map Clip.duration = [d] ∧
      (process_media_files [f] w h d "limit").1.map Clip.duration =
        [min f.nativeDuration (d * 3)] := by
  refine ⟨?_, ?_, ?_⟩
  · simp [process_media_files, processMediaOne, hv, hok]
  · simp [process_media_files, processMediaOne, hv, hok]
  · simp only [process_media_files, processMediaOne, hv, hok, if_true, if_pos]
    rcases le_or_lt f.nativeDuration (d * 3) with hle | hlt
    · simp [if_neg (not_lt.mpr hle), min_eq_left hle]
    · simp [if_pos hlt, min_eq_right hlt.le]

/-- Witness for C5, Scenario D: a 10-second mp4 with image duration 3. -/
theorem C5_video_duration_modes_witness :
    (process_media_files [⟨"v.mp4", 10, true⟩] 1920 1080 3 "original").1.map Clip.duration =
        [10] ∧
      (process_media_files [⟨"v.mp4", 10, true⟩] 1920 1080 3 "fixed").1.map Clip.duration =
        [3] ∧
      (process_media_files [⟨"v.mp4", 10, true⟩] 1920 1080 3 "limit").1.map Clip.duration =
        [min 10 (3 * 3)] :=
  C5_video_duration_modes ⟨"v.mp4", 10, true⟩ 1920 1080 3 (by decide) rfl

/-- Claim C6: a decode failure aborts the whole image-only run
(`process_images` propagates), while the mixed-media path skips the failing
file with a warning and processes every remaining file, so the result is
the same as without the bad file and is non-empty whenever some other valid
file exists. -/
theorem C6_decode_failure_paths (w h : Nat) (d : ℚ) (mode : String)
    (pre post : List MFile) (bad g : MFile)
    (hbad : bad.decodeOk = false)
    (hkind : is_image_file bad.name = true ∨ is_video_file bad.name = true)
    (hg : g ∈ pre ++ post) (hval : validMedia g = true) :
    (∃ e, process_images (pre ++ bad :: post) w h d = Except.error e) ∧
      (process_media_files (pre ++ bad :: post) w h d mode).1 =
        (process_media_files (pre ++ post) w h d mode).1 ∧
      ("Error processing " ++ bad.name) ∈ (process_media_files (pre ++ bad :: post) w h d mode).2 ∧
      (process_media_files (pre ++ bad :: post) w h d mode).1 ≠ [] := by
  have hone := processMediaOne_bad bad w h d mode hbad hkind
  have happ1 := process_media_files_append pre (bad :: post) w h d mode
  have happ2 := process_media_files_append pre post w h d mode
  have hcons : process_media_files (bad :: post) w h d mode =
      ((processMediaOne bad w h d mode).1 ++ (process_media_files post w h d mode).1,
        (processMediaOne bad w h d mode).2 ++ (process_media_files post w h d mode).2) := rfl
  have hmain : (process_media_files (pre ++ bad :: post) w h d mode).1 =
      (process_media_files (pre ++ post) w h d mode).1 := by
    rw [happ1, happ2, hcons, hone]
    simp
  refine ⟨process_images_error _ w h d ⟨bad, by simp, hbad⟩, hmain, ?_, ?_⟩
  · rw [happ1, hcons, hone]
    simp
  · rw [hmain]
    exact process_media_files_ne_nil (pre ++ post) w h d mode g hg hval

/-- Witness for C6, Scenario C: a corrupted jpg between two good files. -/
theorem C6_decode_failure_paths_witness :
    (∃ e, process_images ([⟨"a.jpg", 0, true⟩] ++ ⟨"x.jpg", 0, false⟩ :: [⟨"b.png", 0, true⟩])
        1920 1080 3 = Except.error e) ∧
      (process_media_files ([⟨"a.jpg", 0, true⟩] ++ ⟨"x.jpg", 0, false⟩ :: [⟨"b.png", 0, true⟩])
          1920 1080 3 "original").1 =
        (process_media_files ([⟨"a.jpg", 0, true⟩] ++ [⟨"b.png", 0, true⟩])
          1920 1080 3 "original").1 ∧
      ("Error processing " ++ "x.jpg") ∈
        (process_media_files ([⟨"a.jpg", 0, true⟩] ++ ⟨"x.jpg", 0, false⟩ :: [⟨"b.png", 0, true⟩])
          1920 1080 3 "original").2 ∧
      (process_media_files ([⟨"a.jpg", 0, true⟩] ++ ⟨"x.jpg", 0, false⟩ :: [⟨"b.png", 0, true⟩])
          1920 1080 3 "original").1 ≠ [] :=
  C6_decode_failure_paths 1920 1080 3 "original" [⟨"a.jpg", 0, true⟩] [⟨"b.png", 0, true⟩]
    ⟨"x.jpg", 0, false⟩ ⟨"a.jpg", 0, true⟩ rfl (Or.inl (by decide)) (by decide) (by decide)

end Sly
